import Mathlib

/-!
Verification of the SolanaTrackerBot core against its specification.

The Python sources are shallowly embedded in Lean:
* JSON values (the payloads flowing through the JSON-RPC layer) are the
  inductive type `J`, with Python truthiness as `pyTruthy`.
* `AsyncCustomSolanaClient._make_request` (solana_client.py lines 52-92) is
  `makeRequest`, a state transformer over `ClientState` that also produces an
  event trace (semaphore acquire/release, HTTP posts, backoff sleeps).  The
  network is an oracle `Nat → HttpOutcome` giving the outcome of each attempt.
* the discovery / fetch / parse pipeline (solana_helpers.py) is embedded as
  pure recursive functions over the provider's signature history; Python
  exceptions escaping a function are modelled with `Except Unit`.
* the notification formatter (monitoring.py) is `formatTransactionNotification`.

Python floats only occur here in computations that are exact in binary
floating point for every value any theorem touches (integer lamport deltas
divided by 10^9 at exactly representable points, and differences `x - x`),
so amounts are modelled as rationals.
-/

namespace SolanaTrackerBot

/-- JSON-like values as Python objects: `None`, `bool`, `int`, `str`, `list`,
`dict` (string keys, as produced by JSON decoding). -/
inductive J where
  | null
  | jbool (b : Bool)
  | jint (n : Int)
  | jstr (s : String)
  | jarr (elems : List J)
  | jobj (fields : List (String × J))

/-- Python truthiness: `None`, `False`, `0`, `""`, `[]`, `{}` are falsy. -/
def pyTruthy : J → Bool
  | .null => false
  | .jbool b => b
  | .jint n => n != 0
  | .jstr s => s != ""
  | .jarr l => !l.isEmpty
  | .jobj l => !l.isEmpty

/-- Dictionary field lookup (`d.get(k)` / `d[k]` on a Python dict).  Maps are
represented as association lists where the first binding for a key wins;
overwriting a key prepends, preserving Python dict lookup semantics. -/
def jlookup (fields : List (String × J)) (k : String) : Option J :=
  (fields.find? (fun p => p.1 == k)).map (fun p => p.2)

/-- Truthiness of an optional value (`d.get(k)` used in a condition):
a missing key behaves like `None`. -/
def optTruthy : Option J → Bool
  | some v => pyTruthy v
  | none => false

/-! ## RPC transport: `AsyncCustomSolanaClient._make_request`
(solana_client.py lines 52-92). -/

/-- Mutable client state touched by `_make_request`: the JSON-RPC request-id
counter and the `getTransaction` response cache. -/
structure ClientState where
  request_id : Nat
  transaction_cache : List (String × J)

/-- Outcome of one HTTP attempt, as `_make_request` distinguishes them:
a decoded 2xx body, HTTP 429, HTTP 403, or any exception (network error,
`raise_for_status` on another status, JSON decode failure). -/
inductive HttpOutcome where
  | ok (body : J)
  | rate429
  | auth403
  | exn

/-- The exception that escapes `_make_request`: the dedicated
"Authentication failed" exception raised at the 403 branch, or any other
exception re-raised after the final attempt. -/
inductive PyExc where
  | authFailed
  | genericError
deriving DecidableEq, Repr

/-- Observable events of one `_make_request` call: semaphore acquire/release,
an HTTP post carrying the JSON-RPC envelope id, and a backoff sleep of the
given number of seconds. -/
inductive Ev where
  | semAcquire
  | semRelease
  | httpPost (id : Nat)
  | sleepSec (n : Nat)
deriving DecidableEq, Repr

/-- The body returned when the retry loop falls through
(solana_client.py line 92). -/
def maxRetriesBody : J := .jobj [("error", .jstr "Max retries reached")]

/-- The retry loop of `_make_request` (solana_client.py lines 58-92).
`attempt` is the 0-based loop index, the second `Nat` argument the number of
attempts still available.  Each iteration builds the payload with the current
`request_id` and increments the counter; a 429 sleeps `2^attempt` and
retries; a 403 raises the auth exception, which the enclosing
`except Exception` catches — so it is retried like any other error unless
this was the final attempt; other exceptions behave the same; a success
caches the body when the method is `getTransaction` and returns it. -/
def runAttempts (oracle : Nat → HttpOutcome) (method cacheKey : String)
    (attempt : Nat) : Nat → ClientState → (Except PyExc J) × ClientState × List Ev
  | 0, st => (.ok maxRetriesBody, st, [])
  | remaining + 1, st =>
    let st1 : ClientState := { st with request_id := st.request_id + 1 }
    let postEv := Ev.httpPost st.request_id
    match oracle attempt with
    | .ok body =>
      let st2 := if method == "getTransaction"
        then { st1 with transaction_cache := (cacheKey, body) :: st1.transaction_cache }
        else st1
      (.ok body, st2, [postEv])
    | .rate429 =>
      let r := runAttempts oracle method cacheKey (attempt + 1) remaining st1
      (r.1, r.2.1, postEv :: Ev.sleepSec (2 ^ attempt) :: r.2.2)
    | .auth403 =>
      if remaining == 0 then (.error .authFailed, st1, [postEv])
      else
        let r := runAttempts oracle method cacheKey (attempt + 1) remaining st1
        (r.1, r.2.1, postEv :: Ev.sleepSec (2 ^ attempt) :: r.2.2)
    | .exn =>
      if remaining == 0 then (.error .genericError, st1, [postEv])
      else
        let r := runAttempts oracle method cacheKey (attempt + 1) remaining st1
        (r.1, r.2.1, postEv :: Ev.sleepSec (2 ^ attempt) :: r.2.2)

/-- `_make_request` (solana_client.py lines 52-92): acquire the semaphore,
check the `getTransaction` cache, run the retry loop, release the semaphore
(the `async with` releases it on every exit path, including exceptions).
`paramsJson` stands for `ujson.dumps(params)`. -/
def makeRequest (oracle : Nat → HttpOutcome) (method paramsJson : String)
    (retry_count : Nat) (st : ClientState) : (Except PyExc J) × ClientState × List Ev :=
  let cacheKey := method ++ ":" ++ paramsJson
  if method == "getTransaction" then
    match jlookup st.transaction_cache cacheKey with
    | some cached => (.ok cached, st, [Ev.semAcquire, Ev.semRelease])
    | none =>
      let r := runAttempts oracle method cacheKey 0 retry_count st
      (r.1, r.2.1, Ev.semAcquire :: (r.2.2 ++ [Ev.semRelease]))
  else
    let r := runAttempts oracle method cacheKey 0 retry_count st
    (r.1, r.2.1, Ev.semAcquire :: (r.2.2 ++ [Ev.semRelease]))

/-- C1: the code does NOT fail a 403 on the first attempt.  Evaluating
`_make_request` at the failing input — every attempt answers HTTP 403,
default `retry_count = 3` — shows the auth exception raised at the 403
branch is caught by the function's own generic `except Exception` handler
and retried: three HTTP posts are issued (request ids 1, 2, 3) with backoff
sleeps of 1 and 2 seconds before the authentication error finally
propagates, where the claim requires exactly one request and no sleep. -/
theorem c1_auth403_retried_three_times :
    makeRequest (fun _ => .auth403) "getSignaturesForAddress" "[]" 3 ⟨1, []⟩ =
      (.error .authFailed, ⟨4, []⟩,
        [.semAcquire, .httpPost 1, .sleepSec 1, .httpPost 2, .sleepSec 2, .httpPost 3,
         .semRelease]) := by
  rfl

/-- C2 counterexample: a cache-hit `getTransaction` call does consume a
concurrency slot.  At a concrete state whose cache already holds the key,
the call returns the cached value and issues no HTTP post, but its event
trace acquires (and releases) the transport semaphore, because the
`async with self.semaphore` encloses the cache check
(solana_client.py line 53 before line 55). -/
theorem c2_cache_hit_acquires_semaphore :
    makeRequest (fun _ => .exn) "getTransaction" "[sig]" 3
        ⟨7, [("getTransaction:[sig]", .jstr "cached")]⟩ =
      (.ok (.jstr "cached"), ⟨7, [("getTransaction:[sig]", .jstr "cached")]⟩,
        [.semAcquire, .semRelease]) ∧
    Ev.semAcquire ∈ (makeRequest (fun _ => .exn) "getTransaction" "[sig]" 3
        ⟨7, [("getTransaction:[sig]", .jstr "cached")]⟩).2.2 := by
  refine ⟨rfl, ?_⟩
  have h : (makeRequest (fun _ => .exn) "getTransaction" "[sig]" 3
      ⟨7, [("getTransaction:[sig]", .jstr "cached")]⟩).2.2 =
      [Ev.semAcquire, Ev.semRelease] := rfl
  rw [h]
  exact List.mem_cons_self _ _

/-- C2 (amended): a `getTransaction` call whose `(method, serialized params)`
key is in the transaction cache returns the cached value with no HTTP post,
no request-id increment and no cache change; the only events are the
semaphore acquire and release that bracket the cache check. -/
theorem c2_cache_hit_no_network (oracle : Nat → HttpOutcome) (paramsJson : String)
    (retry_count : Nat) (st : ClientState) (v : J)
    (hhit : jlookup st.transaction_cache ("getTransaction:" ++ paramsJson) = some v) :
    makeRequest oracle "getTransaction" paramsJson retry_count st =
      (.ok v, st, [Ev.semAcquire, Ev.semRelease]) := by
  simp [makeRequest, hhit]

/-- C2 witness: the amended theorem applied at a concrete cached state. -/
theorem c2_cache_hit_no_network_witness :
    makeRequest (fun _ => .auth403) "getTransaction" "p" 3
        ⟨5, [("getTransaction:p", .jint 42)]⟩ =
      (.ok (.jint 42), ⟨5, [("getTransaction:p", .jint 42)]⟩,
        [Ev.semAcquire, Ev.semRelease]) :=
  c2_cache_hit_no_network (fun _ => .auth403) "p" 3
    ⟨5, [("getTransaction:p", .jint 42)]⟩ (.jint 42) rfl

/-! ## Signature descriptors and the per-item transaction fetch
(solana_helpers.py `_fetch_transaction_with_retry`, lines 15-34). -/

/-- One entry of a `getSignaturesForAddress` result, with the fields the
pipeline reads: `signature`, `slot` and the optional `blockTime`. -/
structure SigInfo where
  signature : String
  slot : Int
  blockTime : Option Int
deriving DecidableEq, Repr

/-- The retry loop of `_fetch_transaction_with_retry`.  `oracle sig a` is the
outcome of attempt `a` for signature `sig`: `some body` when
`client.get_transaction` returns (even an error body), `none` when it raises.
Arguments: current attempt index, current backoff delay (`delay`, starts at
`INITIAL_DELAY_SECONDS = 1` and doubles), attempts still available.  Returns
the resolved value (`none` models the Python `return None` after exhausting
`MAX_RETRIES = 5`) and the list of backoff sleeps performed, in seconds. -/
def fetchRetryGo (oracle : String → Nat → Option J) (sig : String)
    (attempt delay : Nat) : Nat → Option J × List Nat
  | 0 => (none, [])
  | remaining + 1 =>
    match oracle sig attempt with
    | some body => (some body, [])
    | none =>
      if remaining == 0 then (none, [])
      else
        let r := fetchRetryGo oracle sig (attempt + 1) (2 * delay) remaining
        (r.1, delay :: r.2)

/-- `_fetch_transaction_with_retry` (solana_helpers.py lines 15-34):
`MAX_RETRIES = 5`, initial delay 1 second.  The inner `Semaphore(15)` only
bounds concurrency and does not affect the value computed per item. -/
def fetchTransactionWithRetry (oracle : String → Nat → Option J) (sig : String) :
    Option J × List Nat :=
  fetchRetryGo oracle sig 0 1 5

/-- The batch fetch of `fetch_and_parse_transactions` (solana_helpers.py
lines 182-186): one task per descriptor, `asyncio.gather` preserving task
order, `zip(signatures, tx_responses)` pairing each descriptor with its
resolved response. -/
def gatherFetch (oracle : String → Nat → Option J) : List SigInfo → List (SigInfo × Option J)
  | [] => []
  | s :: rest => (s, (fetchTransactionWithRetry oracle s.signature).1) :: gatherFetch oracle rest

theorem gatherFetch_length (oracle : String → Nat → Option J) (sigs : List SigInfo) :
    (gatherFetch oracle sigs).length = sigs.length := by
  induction sigs with
  | nil => rfl
  | cons s rest ih => simp [gatherFetch, ih]

theorem gatherFetch_getElem (oracle : String → Nat → Option J) (sigs : List SigInfo)
    (i : Nat) (h : i < sigs.length) :
    (gatherFetch oracle sigs)[i]? =
      some (sigs[i], (fetchTransactionWithRetry oracle (sigs[i]).signature).1) := by
  induction sigs generalizing i with
  | nil => simp at h
  | cons s rest ih =>
    cases i with
    | zero => simp [gatherFetch]
    | succ j =>
      have hj : j < rest.length := by simpa using h
      simpa [gatherFetch] using ih j hj

theorem fetchRetry_all_fail (oracle : String → Nat → Option J) (sig : String)
    (hfail : ∀ a, a < 5 → oracle sig a = none) :
    fetchTransactionWithRetry oracle sig = (none, [1, 2, 4, 8]) := by
  have h0 := hfail 0 (by omega)
  have h1 := hfail 1 (by omega)
  have h2 := hfail 2 (by omega)
  have h3 := hfail 3 (by omega)
  have h4 := hfail 4 (by omega)
  simp [fetchTransactionWithRetry, fetchRetryGo, h0, h1, h2, h3, h4]

/-- C4: the batch fetch yields exactly one result per descriptor, paired in
input order (`(gatherFetch oracle sigs)[i]` is descriptor `i` with its
resolved response), and an item whose fetch raises on all 5 attempts
resolves to `none` after backoff sleeps of 1, 2, 4 and 8 seconds, without
aborting the rest of the batch. -/
theorem c4_batch_fetch_pairs_and_isolation (oracle : String → Nat → Option J)
    (sigs : List SigInfo) (i : Nat) (h : i < sigs.length) :
    (gatherFetch oracle sigs).length = sigs.length ∧
    (gatherFetch oracle sigs)[i]? =
      some (sigs[i], (fetchTransactionWithRetry oracle (sigs[i]).signature).1) ∧
    ((∀ a, a < 5 → oracle (sigs[i]).signature a = none) →
      fetchTransactionWithRetry oracle (sigs[i]).signature = (none, [1, 2, 4, 8])) :=
  ⟨gatherFetch_length oracle sigs, gatherFetch_getElem oracle sigs i h,
    fun hfail => fetchRetry_all_fail oracle (sigs[i]).signature hfail⟩

/-- Ten fixture descriptors for the C4 witness; `f1`, `f2`, `f3` will fail. -/
def sigsTen : List SigInfo :=
  [⟨"s1", 10, some 100⟩, ⟨"s2", 9, some 90⟩, ⟨"f1", 8, some 80⟩,
   ⟨"s3", 7, some 70⟩, ⟨"f2", 6, some 60⟩, ⟨"s4", 5, some 50⟩,
   ⟨"s5", 4, some 40⟩, ⟨"f3", 3, some 30⟩, ⟨"s6", 2, some 20⟩,
   ⟨"s7", 1, some 10⟩]

/-- Oracle for the C4 witness: signatures `f1`, `f2`, `f3` raise on every
attempt, all others return a body on the first attempt. -/
def oracleTen : String → Nat → Option J := fun sig _ =>
  if sig == "f1" || sig == "f2" || sig == "f3" then none
  else some (.jobj [("result", .jstr sig)])

/-- C4 witness: the theorem applied at the 10-descriptor fixture, at the
persistently failing index 2, with every hypothesis discharged concretely. -/
theorem c4_batch_fetch_pairs_and_isolation_witness :
    (gatherFetch oracleTen sigsTen).length = sigsTen.length ∧
    (gatherFetch oracleTen sigsTen)[2]? =
      some (sigsTen[2], (fetchTransactionWithRetry oracleTen (sigsTen[2]).signature).1) ∧
    fetchTransactionWithRetry oracleTen (sigsTen[2]).signature = (none, [1, 2, 4, 8]) := by
  have h := c4_batch_fetch_pairs_and_isolation oracleTen sigsTen 2 (by decide)
  exact ⟨h.1, h.2.1, h.2.2 (by intro a ha; interval_cases a <;> rfl)⟩

/-! ## Signature discovery (solana_helpers.py `fetch_and_parse_transactions`,
lines 104-177).

The provider is modelled by the full signature history of the address, newest
first; each `get_signatures_for_address(address, limit=1000, before=...)`
call returns the next chunk of up to 1000 entries, since `before` is always
the last signature of the previous batch. -/

/-- The keep-condition of the date-range branch (line 130):
`if block_time and start_ts <= block_time <= end_ts`. -/
def inDateRange (startTs endTs : Int) (s : SigInfo) : Bool :=
  match s.blockTime with
  | some t => t != 0 && decide (startTs ≤ t) && decide (t ≤ endTs)
  | none => false

/-- The early-stop condition of the date-range branch (lines 134-136):
`last_sig_time = batch[-1].get("blockTime"); if last_sig_time and
last_sig_time < start_ts: break`. -/
def lastPredatesStart (startTs : Int) (batch : List SigInfo) : Bool :=
  match batch.getLast? with
  | some s =>
    match s.blockTime with
    | some t => t != 0 && decide (t < startTs)
    | none => false
  | none => false

/-- The date-range pagination loop (solana_helpers.py lines 116-143):
`while fetched_count < 20000`, pages of 1000, collect in-range descriptors,
stop when the oldest descriptor of the page predates `start`, on a short
page, or at the 20000 safety cap. -/
def dateRangeScan (startTs endTs : Int) (history : List SigInfo) (fetched : Nat) :
    List SigInfo :=
  if fetched < 20000 then
    if history.isEmpty then []
    else
      let batch := history.take 1000
      let keep := batch.filter (inDateRange startTs endTs)
      if lastPredatesStart startTs batch then keep
      else if hshort : (history.take 1000).length < 1000 then keep
      else keep ++ dateRangeScan startTs endTs (history.drop 1000) (fetched + 1000)
  else []
termination_by history.length
decreasing_by
  simp only [List.length_take, List.length_drop] at *
  omega

/-- Spec-side predicate for C3, from the spec's words: the descriptor's
confirmation time lies in `[start, end]`, inclusive. -/
def specInDateRange (startTs endTs : Int) (s : SigInfo) : Bool :=
  match s.blockTime with
  | some t => decide (startTs ≤ t) && decide (t ≤ endTs)
  | none => false

/-- Truthiness of the `Optional[int]` block bounds: `None` and `0` are
falsy. -/
def optIntTruthy : Option Int → Bool
  | some n => n != 0
  | none => false

/-- The per-batch loop body of the block-range branch (solana_helpers.py
lines 157-165): skip a descriptor with `end_block and slot > end_block`,
set `stop_fetching` and break on `start_block and slot < start_block`,
otherwise keep it.  Returns the descriptors kept from this batch and the
`stop_fetching` flag. -/
def blockRangeProcess (startB endB : Option Int) : List SigInfo → List SigInfo × Bool
  | [] => ([], false)
  | s :: rest =>
    if (match endB with | some e => e != 0 && decide (s.slot > e) | none => false) then
      blockRangeProcess startB endB rest
    else if (match startB with | some b => b != 0 && decide (s.slot < b) | none => false) then
      ([], true)
    else
      let r := blockRangeProcess startB endB rest
      (s :: r.1, r.2)

/-- The block-range pagination loop (solana_helpers.py lines 146-171):
`while fetched_count < 5000`, pages of 1000, stop on `stop_fetching` or a
short page. -/
def blockRangeScan (startB endB : Option Int) (history : List SigInfo) (fetched : Nat) :
    List SigInfo :=
  if fetched < 5000 then
    if history.isEmpty then []
    else
      let batch := history.take 1000
      let pr := blockRangeProcess startB endB batch
      if pr.2 then pr.1
      else if hshort : (history.take 1000).length < 1000 then pr.1
      else pr.1 ++ blockRangeScan startB endB (history.drop 1000) (fetched + 1000)
  else []
termination_by history.length
decreasing_by
  simp only [List.length_take, List.length_drop] at *
  omega

/-- Mode selection of `fetch_and_parse_transactions` (lines 112, 145, 172):
a date range when both dates are supplied, else the block-range branch when
`start_block or end_block` is truthy, else the single count-limited page. -/
def discoverSignatures (history : List SigInfo) (limit : Nat)
    (startB endB : Option Int) (dateRange : Option (Int × Int)) : List SigInfo :=
  match dateRange with
  | some (startTs, endTs) => dateRangeScan startTs endTs history 0
  | none =>
    if optIntTruthy startB || optIntTruthy endB then blockRangeScan startB endB history 0
    else history.take limit

/-- Chronological descent of the provider history: whenever two descriptors
both carry a confirmation time, the later (older) one is not newer. -/
def btGe (a b : SigInfo) : Bool :=
  match a.blockTime, b.blockTime with
  | some ta, some tb => decide (tb ≤ ta)
  | _, _ => true

theorem getLast?_mem_self {α : Type} {l : List α} {a : α} (h : l.getLast? = some a) :
    a ∈ l := by
  obtain ⟨hne, heq⟩ := List.mem_getLast?_eq_getLast (Option.mem_def.mpr h)
  rw [heq]
  exact List.getLast_mem hne

theorem inDateRange_eq_spec (startTs endTs : Int) (s : SigInfo) (h : 0 < startTs) :
    inDateRange startTs endTs s = specInDateRange startTs endTs s := by
  unfold inDateRange specInDateRange
  cases s.blockTime with
  | none => rfl
  | some t =>
    by_cases h1 : startTs ≤ t
    · have h2 : t ≠ 0 := by omega
      simp [h1, h2]
    · simp [h1]

theorem lastPredatesStart_spec (startTs : Int) (batch : List SigInfo)
    (h : lastPredatesStart startTs batch = true) :
    ∃ s0 t0, batch.getLast? = some s0 ∧ s0.blockTime = some t0 ∧ t0 < startTs := by
  unfold lastPredatesStart at h
  split at h
  next s0 hg =>
    split at h
    next t0 hb =>
      simp at h
      exact ⟨s0, t0, hg, hb, h.2⟩
    next hb => simp at h
  next hg => simp at h

theorem specInDateRange_false_of_predates (startTs endTs t0 : Int) (s0 x : SigInfo)
    (hbt0 : s0.blockTime = some t0) (hlt : t0 < startTs) (hge : btGe s0 x = true) :
    specInDateRange startTs endTs x = false := by
  unfold specInDateRange
  cases hbx : x.blockTime with
  | none => rfl
  | some tx =>
    unfold btGe at hge
    rw [hbt0, hbx] at hge
    simp at hge
    have : ¬ startTs ≤ tx := by omega
    simp [this]

theorem dateRangeScan_eq_filter_aux (startTs endTs : Int) (hstart : 0 < startTs) :
    ∀ (n : Nat) (history : List SigInfo) (fetched : Nat),
      history.length ≤ n →
      List.Pairwise (fun a b => btGe a b = true) history →
      history.length + fetched ≤ 20000 →
      dateRangeScan startTs endTs history fetched =
        history.filter (specInDateRange startTs endTs) := by
  intro n
  induction n with
  | zero =>
    intro history fetched hlen _ _
    have hnil : history = [] := List.length_eq_zero.mp (Nat.le_zero.mp hlen)
    subst hnil
    rw [dateRangeScan]
    simp
  | succ n ih =>
    intro history fetched hlen hmono hcap
    rw [dateRangeScan]
    by_cases hf : fetched < 20000
    · by_cases hemp : history.isEmpty
      · have hnil : history = [] := by simpa [List.isEmpty_iff] using hemp
        simp [hf, hnil]
      · simp only [hf, if_true, hemp, if_false]
        have hsplit := List.take_append_drop 1000 history
        have hmono2 : List.Pairwise (fun a b => btGe a b = true)
            (history.take 1000 ++ history.drop 1000) := by rw [hsplit]; exact hmono
        rw [List.pairwise_append] at hmono2
        have hfsplit : history.filter (specInDateRange startTs endTs) =
            (history.take 1000).filter (specInDateRange startTs endTs) ++
            (history.drop 1000).filter (specInDateRange startTs endTs) := by
          conv_lhs => rw [← hsplit]
          exact List.filter_append _ _
        have hkeep : (history.take 1000).filter (inDateRange startTs endTs) =
            (history.take 1000).filter (specInDateRange startTs endTs) :=
          List.filter_congr (fun x _ => inDateRange_eq_spec startTs endTs x hstart)
        by_cases hstop : lastPredatesStart startTs (history.take 1000) = true
        · simp only [hstop, if_true]
          obtain ⟨s0, t0, hg, hbt0, hlt⟩ := lastPredatesStart_spec startTs _ hstop
          have hdropnil : (history.drop 1000).filter (specInDateRange startTs endTs) = [] := by
            rw [List.filter_eq_nil_iff]
            intro x hx
            have hrel : btGe s0 x = true := hmono2.2.2 s0 (getLast?_mem_self hg) x hx
            simp [specInDateRange_false_of_predates startTs endTs t0 s0 x hbt0 hlt hrel]
          rw [hfsplit, hdropnil, List.append_nil, hkeep]
          simp
        · simp only [hstop, if_false]
          by_cases hshort : (history.take 1000).length < 1000
          · simp only [hshort, dif_pos]
            have hlen1000 : history.length < 1000 := by
              simpa [List.length_take] using hshort
            have hdropnil : history.drop 1000 = [] :=
              List.drop_eq_nil_of_le (by omega)
            rw [hfsplit, hdropnil, List.filter_nil, List.append_nil, hkeep]
            simp
          · simp only [hshort, dif_neg, not_false_iff]
            have hlen1000 : 1000 ≤ history.length := by
              by_contra hc
              exact hshort (by simp [List.length_take]; omega)
            have hrec := ih (history.drop 1000) (fetched + 1000)
              (by simp [List.length_drop]; omega)
              hmono2.2.1
              (by simp [List.length_drop]; omega)
            rw [hrec, hfsplit, hkeep]
            simp
    · have hnil : history = [] := by
        have : history.length = 0 := by omega
        exact List.length_eq_zero.mp this
      simp [hf, hnil]

/-- C3: over a provider history that descends chronologically (as
`getSignaturesForAddress` histories do), with a positive start bound and no
more than the 20000-descriptor safety cap of history, date-range discovery
returns exactly the descriptors whose confirmation time lies in
`[startTs, endTs]` inclusive — independent of how the history splits into
pages of 1000. -/
theorem c3_date_range_discovery_exact (startTs endTs : Int) (history : List SigInfo)
    (hmono : List.Pairwise (fun a b => btGe a b = true) history)
    (hstart : 0 < startTs)
    (hlen : history.length ≤ 20000) :
    discoverSignatures history 0 none none (some (startTs, endTs)) =
      history.filter (specInDateRange startTs endTs) := by
  unfold discoverSignatures
  exact dateRangeScan_eq_filter_aux startTs endTs hstart history.length history 0
    le_rfl hmono (by omega)

/-- Fixture history for the C3 witness: three descriptors in descending
confirmation-time order; only the middle one lies in `[10, 20]`. -/
def histThree : List SigInfo :=
  [⟨"a", 3, some 30⟩, ⟨"b", 2, some 15⟩, ⟨"c", 1, some 5⟩]

/-- C3 witness: the theorem applied at the concrete fixture history and the
range `[10, 20]`, yielding exactly the in-range descriptor. -/
theorem c3_date_range_discovery_exact_witness :
    discoverSignatures histThree 0 none none (some (10, 20)) = [⟨"b", 2, some 15⟩] :=
  (c3_date_range_discovery_exact 10 20 histThree (by decide) (by decide) (by decide)).trans
    (by rfl)

/-- Keep-condition of the block-range branch per the spec's words:
`startBlock <= slot <= endBlock`. -/
def specInBlockRange (s e : Int) (x : SigInfo) : Bool :=
  decide (s ≤ x.slot) && decide (x.slot ≤ e)

/-- C7 counterexample: with `startBlock = 5` and `endBlock = 0`, the Python
truthiness test `if end_block and slot > end_block` is skipped entirely, so
a descriptor with slot 7 is kept even though the claim requires
`slot <= endBlock = 0`.  (With both bounds zero the block-range branch is
not even selected, since `elif start_block or end_block` is falsy.) -/
theorem c7_endblock_zero_keeps_larger_slot :
    discoverSignatures [⟨"cex", 7, some 100⟩] 100 (some 5) (some 0) none =
      [⟨"cex", 7, some 100⟩] ∧
    ¬ ((7 : Int) ≤ 0) := by
  constructor
  · have h : blockRangeScan (some 5) (some 0) [⟨"cex", 7, some 100⟩] 0 =
        [⟨"cex", 7, some 100⟩] := by
      rw [blockRangeScan]
      rfl
    simpa [discoverSignatures, optIntTruthy] using h
  · decide

theorem blockRangeProcess_kept (s e : Int) (hs : s ≠ 0) (he : e ≠ 0)
    (batch : List SigInfo)
    (hmono : List.Pairwise (fun a b => b.slot ≤ a.slot) batch) :
    (blockRangeProcess (some s) (some e) batch).1 = batch.filter (specInBlockRange s e) := by
  induction batch with
  | nil => rfl
  | cons x rest ih =>
    obtain ⟨hhead, htail⟩ := List.pairwise_cons.mp hmono
    unfold blockRangeProcess
    by_cases h1 : x.slot > e
    · have hc1 : (e != 0 && decide (x.slot > e)) = true := by simp [he, h1]
      have hx : specInBlockRange s e x = false := by
        unfold specInBlockRange
        have : ¬ x.slot ≤ e := by omega
        simp [this]
      simp only [hc1, if_true, List.filter_cons, hx]
      simpa using ih htail
    · have hc1 : (e != 0 && decide (x.slot > e)) = false := by simp [h1]
      by_cases h2 : x.slot < s
      · have hc2 : (s != 0 && decide (x.slot < s)) = true := by simp [hs, h2]
        simp only [hc1, hc2, if_true, if_false, Bool.false_eq_true]
        have hnil : (x :: rest).filter (specInBlockRange s e) = [] := by
          rw [List.filter_eq_nil_iff]
          intro y hy
          rcases List.mem_cons.mp hy with hyx | hyr
          · subst hyx
            unfold specInBlockRange
            have : ¬ s ≤ y.slot := by omega
            simp [this]
          · have : y.slot ≤ x.slot := hhead y hyr
            unfold specInBlockRange
            have hns : ¬ s ≤ y.slot := by omega
            simp [hns]
        rw [hnil]
      · have hc2 : (s != 0 && decide (x.slot < s)) = false := by simp [h2]
        have hx : specInBlockRange s e x = true := by
          unfold specInBlockRange
          have hle : x.slot ≤ e := by omega
          have hge : s ≤ x.slot := by omega
          simp [hle, hge]
        simp only [hc1, hc2, if_false, Bool.false_eq_true, List.filter_cons, hx, if_true]
        simpa using ih htail

theorem blockRangeProcess_stop_exists (s e : Int) (batch : List SigInfo)
    (h : (blockRangeProcess (some s) (some e) batch).2 = true) :
    ∃ x ∈ batch, x.slot < s := by
  induction batch with
  | nil => simp [blockRangeProcess] at h
  | cons x rest ih =>
    unfold blockRangeProcess at h
    by_cases h1 : (match (some e : Option Int) with
        | some e => e != 0 && decide (x.slot > e) | none => false) = true
    · rw [if_pos h1] at h
      obtain ⟨y, hy, hys⟩ := ih h
      exact ⟨y, List.mem_cons_of_mem x hy, hys⟩
    · rw [if_neg h1] at h
      by_cases h2 : (match (some s : Option Int) with
          | some b => b != 0 && decide (x.slot < b) | none => false) = true
      · have : x.slot < s := by
          simp at h2
          exact h2.2
        exact ⟨x, List.mem_cons_self x rest, this⟩
      · rw [if_neg h2] at h
        simp only at h
        obtain ⟨y, hy, hys⟩ := ih h
        exact ⟨y, List.mem_cons_of_mem x hy, hys⟩

theorem blockRangeScan_eq_filter_aux (s e : Int) (hs : s ≠ 0) (he : e ≠ 0) :
    ∀ (n : Nat) (history : List SigInfo) (fetched : Nat),
      history.length ≤ n →
      List.Pairwise (fun a b => b.slot ≤ a.slot) history →
      history.length + fetched ≤ 5000 →
      blockRangeScan (some s) (some e) history fetched =
        history.filter (specInBlockRange s e) := by
  intro n
  induction n with
  | zero =>
    intro history fetched hlen _ _
    have hnil : history = [] := List.length_eq_zero.mp (Nat.le_zero.mp hlen)
    subst hnil
    rw [blockRangeScan]
    simp
  | succ n ih =>
    intro history fetched hlen hmono hcap
    rw [blockRangeScan]
    by_cases hf : fetched < 5000
    · by_cases hemp : history.isEmpty
      · have hnil : history = [] := by simpa [List.isEmpty_iff] using hemp
        simp [hf, hnil]
      · simp only [hf, if_true, hemp, if_false]
        have hsplit := List.take_append_drop 1000 history
        have hmono2 : List.Pairwise (fun a b => b.slot ≤ a.slot)
            (history.take 1000 ++ history.drop 1000) := by rw [hsplit]; exact hmono
        rw [List.pairwise_append] at hmono2
        have hfsplit : history.filter (specInBlockRange s e) =
            (history.take 1000).filter (specInBlockRange s e) ++
            (history.drop 1000).filter (specInBlockRange s e) := by
          conv_lhs => rw [← hsplit]
          exact List.filter_append _ _
        have hkept := blockRangeProcess_kept s e hs he (history.take 1000) hmono2.1
        by_cases hstop : (blockRangeProcess (some s) (some e) (history.take 1000)).2 = true
        · simp only [hstop, if_true]
          obtain ⟨x, hx, hxs⟩ := blockRangeProcess_stop_exists s e _ hstop
          have hdropnil : (history.drop 1000).filter (specInBlockRange s e) = [] := by
            rw [List.filter_eq_nil_iff]
            intro y hy
            have : y.slot ≤ x.slot := hmono2.2.2 x hx y hy
            unfold specInBlockRange
            have hns : ¬ s ≤ y.slot := by omega
            simp [hns]
          rw [hfsplit, hdropnil, List.append_nil, hkept]
          simp
        · simp only [hstop, if_false]
          by_cases hshort : (history.take 1000).length < 1000
          · simp only [hshort, dif_pos]
            have hlen1000 : history.length < 1000 := by
              simpa [List.length_take] using hshort
            have hdropnil : history.drop 1000 = [] :=
              List.drop_eq_nil_of_le (by omega)
            rw [hfsplit, hdropnil, List.filter_nil, List.append_nil, hkept]
            simp
          · simp only [hshort, dif_neg, not_false_iff]
            have hlen1000 : 1000 ≤ history.length := by
              by_contra hc
              exact hshort (by simp [List.length_take]; omega)
            have hrec := ih (history.drop 1000) (fetched + 1000)
              (by simp [List.length_drop]; omega)
              hmono2.2.1
              (by simp [List.length_drop]; omega)
            rw [hrec, hfsplit, hkept]
            simp
    · have hnil : history = [] := by
        have : history.length = 0 := by omega
        exact List.length_eq_zero.mp this
      simp [hf, hnil]

/-- C7 (amended): when both block bounds are nonzero, block-range discovery
over a slot-descending history of at most the 5000-descriptor cap returns
exactly the descriptors with `startBlock <= slot <= endBlock`; the early
stop on `slot < startBlock`, the short-page stop and the cap discard only
out-of-range descriptors.  A zero `endBlock` disables the upper-bound test,
a zero `startBlock` disables the early stop, and with both bounds zero the
block-range branch is not selected at all (Python truthiness of
`elif start_block or end_block`). -/
theorem c7_block_range_discovery_exact (history : List SigInfo) (s e : Int)
    (hmono : List.Pairwise (fun a b => b.slot ≤ a.slot) history)
    (hs : s ≠ 0) (he : e ≠ 0)
    (hlen : history.length ≤ 5000) :
    discoverSignatures history 0 (some s) (some e) none =
      history.filter (specInBlockRange s e) := by
  unfold discoverSignatures
  have hsel : (optIntTruthy (some s) || optIntTruthy (some e)) = true := by
    simp [optIntTruthy, hs]
  rw [hsel]
  simp only [if_true]
  exact blockRangeScan_eq_filter_aux s e hs he history.length history 0 le_rfl hmono (by omega)

/-- C7 witness: the amended theorem applied to a concrete descending history
with bounds `[2, 8]`, keeping exactly the two in-range descriptors. -/
theorem c7_block_range_discovery_exact_witness :
    discoverSignatures
        [⟨"p", 9, some 90⟩, ⟨"q", 8, some 80⟩, ⟨"r", 2, some 20⟩, ⟨"t", 1, some 10⟩]
        0 (some 2) (some 8) none =
      [⟨"q", 8, some 80⟩, ⟨"r", 2, some 20⟩] :=
  (c7_block_range_discovery_exact
      [⟨"p", 9, some 90⟩, ⟨"q", 8, some 80⟩, ⟨"r", 2, some 20⟩, ⟨"t", 1, some 10⟩]
      2 8 (by decide) (by decide) (by decide) (by decide)).trans (by rfl)

/-! ## Transaction normalizer (solana_helpers.py `_parse_transaction_details`,
lines 37-101).

Python statements that can raise (`"result" in x` on a scalar, `.get` on a
non-dict, iterating a non-iterable, arithmetic on a non-number,
`datetime.fromtimestamp` on a non-number) are modelled with `Except Unit`;
`.error ()` is an exception escaping the function. -/

/-- Python iteration `for x in v`: lists yield elements, strings yield their
characters (as 1-character strings), dicts yield their keys; `None`, `bool`
and `int` raise `TypeError`. -/
def pyIterJ : J → Except Unit (List J)
  | .jarr l => .ok l
  | .jstr s => .ok (s.toList.map (fun c => .jstr (String.singleton c)))
  | .jobj l => .ok (l.map (fun p => .jstr p.1))
  | _ => .error ()

/-- Substring test, for Python `"result" in tx_response` when the response is
a string. -/
def strContains (s sub : String) : Bool := (s.splitOn sub).length > 1

/-- The timestamp derivation (solana_helpers.py lines 47-48):
`datetime.fromtimestamp(block_time).strftime(...) if block_time else ''`.
A truthy integer is kept (the source renders it as a local-time string, which
carries exactly the integer's information); a falsy or missing value yields
the empty timestamp, modelled as `none`; `fromtimestamp` on a truthy
non-number raises `TypeError`.  `True` is the integer 1 in Python. -/
def tsOfBlockTime : Option J → Except Unit (Option Int)
  | none => .ok none
  | some v =>
    if pyTruthy v then
      match v with
      | .jint n => .ok (some n)
      | .jbool _ => .ok (some 1)
      | _ => .error ()
    else .ok none

/-- The `amount` value of a parsed record: the initial `'N/A'` placeholder, a
number from the lamports division, a value taken verbatim from the
instruction, or Python `None` (both `uiAmountString` and `uiAmount`
missing). -/
inductive PyAmount where
  | na
  | num (q : ℚ)
  | raw (v : J)
  | pynone

/-- One parsed transfer record, with the keys of the dict built at
solana_helpers.py lines 90-100. -/
structure TransferRecord where
  type : J
  wallet_1 : J
  wallet_2 : J
  amount : PyAmount
  authority : Option J
  timestamp : Option Int
  signature : String
  block_number : J
  link : String

/-- The 3-tier amount fallback (solana_helpers.py lines 82-88).  The lamport
count is divided by 10^9 (Python float division; exact rational here — no
theorem in this development compares an amount produced by this division). -/
def computeAmount (info : List (String × J)) : Except Unit PyAmount :=
  match jlookup info "lamports" with
  | some lam =>
    match lam with
    | .jint n => .ok (.num ((n : ℚ) / 1000000000))
    | .jbool b => .ok (.num ((if b then (1 : ℚ) else 0) / 1000000000))
    | _ => .error ()
  | none =>
    match jlookup info "tokenAmount" with
    | some ta =>
      match ta with
      | .jobj taf =>
        match jlookup taf "uiAmountString" with
        | some a1 =>
          if pyTruthy a1 then .ok (.raw a1)
          else
            match jlookup taf "uiAmount" with
            | some a2 => .ok (.raw a2)
            | none => .ok .pynone
        | none =>
          match jlookup taf "uiAmount" with
          | some a2 => .ok (.raw a2)
          | none => .ok .pynone
      | _ => .error ()
    | none =>
      match jlookup info "amount" with
      | some a => .ok (.raw a)
      | none => .ok .na

/-- One iteration of the instruction loop (solana_helpers.py lines 63-100):
skip non-dict instructions, skip a missing/non-dict/empty `parsed`, skip
declared types other than `transfer`/`transferChecked`, read
`info = parsed.get('info', {})` (a truthy or falsy non-dict here makes the
subsequent `info.get('source')` raise `AttributeError`), skip when source or
destination is falsy, else emit one record. -/
def parseInstruction (timestamp : Option Int) (signature : String) (blockNum : J)
    (instruction : J) : Except Unit (List TransferRecord) :=
  match instruction with
  | .jobj ins =>
    match jlookup ins "parsed" with
    | some (.jobj p) =>
      if p.isEmpty then .ok []
      else
        match jlookup p "type" with
        | some (.jstr t) =>
          if t == "transfer" || t == "transferChecked" then
            match (jlookup p "info").getD (.jobj []) with
            | .jobj info =>
              if optTruthy (jlookup info "source") && optTruthy (jlookup info "destination") then
                match computeAmount info with
                | .ok amt =>
                  .ok [{ type := .jstr t,
                         wallet_1 := (jlookup info "source").getD .null,
                         wallet_2 := (jlookup info "destination").getD .null,
                         amount := amt, authority := jlookup info "authority",
                         timestamp := timestamp,
                         signature := signature, block_number := blockNum,
                         link := "https://solscan.io/tx/" ++ signature }]
                | .error er => .error er
              else .ok []
            | _ => .error ()
          else .ok []
        | _ => .ok []
    | none => .ok []
    | some _ => .ok []
  | _ => .ok []

/-- The instruction loop, accumulating records in order and propagating any
exception raised by an iteration. -/
def parseInstructions (timestamp : Option Int) (signature : String) (blockNum : J) :
    List J → Except Unit (List TransferRecord)
  | [] => .ok []
  | ins :: rest =>
    match parseInstruction timestamp signature blockNum ins with
    | .error er => .error er
    | .ok recs =>
      match parseInstructions timestamp signature blockNum rest with
      | .error er => .error er
      | .ok more => .ok (recs ++ more)

/-- `_parse_transaction_details` (solana_helpers.py lines 37-101).  The
input is the `Optional[Dict]` returned by the fetch layer, kept as
`Option J` since the response body is arbitrary decoded JSON.  Models:
the falsy/`"result" not in`/falsy-result rejections of line 40 (membership
on a truthy scalar raises `TypeError`; indexing a list or string with the
key `"result"` raises after a successful membership test), the
`fromtimestamp` call on `blockTime`, `slot` defaulting to `''`, the
isinstance rejections of the `transaction` and `message` fields, and the
instruction loop over `message.get('instructions', [])`. -/
def parseTransactionDetails (tx_response : Option J) (sig_info : SigInfo) :
    Except Unit (List TransferRecord) :=
  match tx_response with
  | none => .ok []
  | some resp =>
    if pyTruthy resp then
      match resp with
      | .jobj d =>
        match jlookup d "result" with
        | none => .ok []
        | some txResult =>
          if pyTruthy txResult then
            match txResult with
            | .jobj r =>
              match tsOfBlockTime (jlookup r "blockTime") with
              | .error er => .error er
              | .ok timestamp =>
                match jlookup r "transaction" with
                | some (.jobj t) =>
                  match (jlookup t "message").getD (.jobj []) with
                  | .jobj m =>
                    match pyIterJ ((jlookup m "instructions").getD (.jarr [])) with
                    | .error er => .error er
                    | .ok instrs =>
                      parseInstructions timestamp sig_info.signature
                        ((jlookup r "slot").getD (.jstr "")) instrs
                  | _ => .ok []
                | _ => .ok []
            | _ => .error ()
          else .ok []
      | .jarr l =>
        if l.any (fun v => match v with | .jstr s => s == "result" | _ => false) then
          .error ()
        else .ok []
      | .jstr s =>
        if strContains s "result" then .error () else .ok []
      | _ => .error ()
    else .ok []

/-- Spec-side condition for C5 case (a): the transaction result is absent or
null — the whole response is `None`, or the dict has no `result` key, or the
`result` key maps to null.  (A null response is also covered.) -/
def resultAbsentOrNull : Option J → Prop
  | none => True
  | some .null => True
  | some (.jobj d) => jlookup d "result" = none ∨ jlookup d "result" = some .null
  | some _ => False

/-- Spec-side condition for C5 case (b): the `transaction` field of the
result is not a dict (missing or of another type), or its `message` field is
present and not a dict (a missing `message` defaults to `{}`, a dict). -/
def txnOrMessageMalformed (r : List (String × J)) : Prop :=
  (match jlookup r "transaction" with | some (.jobj _) => False | _ => True) ∨
  (∃ t, jlookup r "transaction" = some (.jobj t) ∧
    (match jlookup t "message" with
     | some (.jobj _) => False
     | none => False
     | some _ => True))

/-- Whether an instruction declares type exactly `transfer` or
`transferChecked` (the test at solana_helpers.py lines 70-71). -/
def declaredTransferType (ins : J) : Bool :=
  match ins with
  | .jobj i =>
    match jlookup i "parsed" with
    | some (.jobj p) =>
      match jlookup p "type" with
      | some (.jstr t) => t == "transfer" || t == "transferChecked"
      | _ => false
    | _ => false
  | _ => false

theorem pyTruthy_jobj_of_lookup {d : List (String × J)} {k : String} {v : J}
    (h : jlookup d k = some v) : pyTruthy (.jobj d) = true := by
  cases d with
  | nil => simp [jlookup] at h
  | cons p rest => simp [pyTruthy]

theorem parseInstruction_skip_of_not_transfer (timestamp : Option Int)
    (signature : String) (blockNum : J) (ins : J)
    (h : declaredTransferType ins = false) :
    parseInstruction timestamp signature blockNum ins = .ok [] := by
  cases ins with
  | null => rfl
  | jbool b => rfl
  | jint n => rfl
  | jstr t => rfl
  | jarr l => rfl
  | jobj i =>
    cases hp : jlookup i "parsed" with
    | none => simp [parseInstruction, hp]
    | some pv =>
      cases pv with
      | null => simp [parseInstruction, hp]
      | jbool b => simp [parseInstruction, hp]
      | jint n => simp [parseInstruction, hp]
      | jstr u => simp [parseInstruction, hp]
      | jarr l => simp [parseInstruction, hp]
      | jobj p =>
        by_cases hemp : p.isEmpty
        · simp [parseInstruction, hp, hemp]
        · cases ht : jlookup p "type" with
          | none => simp [parseInstruction, hp, hemp, ht]
          | some tv =>
            cases tv with
            | jstr t2 =>
              simp only [declaredTransferType, hp, ht] at h
              simp [parseInstruction, hp, hemp, ht, h]
            | null => simp [parseInstruction, hp, hemp, ht]
            | jbool b => simp [parseInstruction, hp, hemp, ht]
            | jint n => simp [parseInstruction, hp, hemp, ht]
            | jarr l => simp [parseInstruction, hp, hemp, ht]
            | jobj l => simp [parseInstruction, hp, hemp, ht]

theorem parseInstructions_nil_of_no_transfer (timestamp : Option Int)
    (signature : String) (blockNum : J) (instrs : List J)
    (h : ∀ ins ∈ instrs, declaredTransferType ins = false) :
    parseInstructions timestamp signature blockNum instrs = .ok [] := by
  induction instrs with
  | nil => rfl
  | cons ins rest ih =>
    unfold parseInstructions
    rw [parseInstruction_skip_of_not_transfer timestamp signature blockNum ins
      (h ins (List.mem_cons_self ins rest))]
    rw [ih (fun x hx => h x (List.mem_cons_of_mem ins hx))]
    rfl

/-- C5: the normalizer returns the empty record list when (a) the result is
absent or null, (b) the result is a dict whose `transaction` field is not a
dict or whose `message` field is a non-dict, or (c) the result is well
formed but no instruction declares type `transfer`/`transferChecked` — in
cases (b) and (c) provided the `blockTime` rendering at lines 47-48 does not
itself raise (i.e. `blockTime` is absent, falsy or a number). -/
theorem c5_normalizer_rejections (resp : Option J) (sig : SigInfo) :
    (resultAbsentOrNull resp → parseTransactionDetails resp sig = .ok []) ∧
    (∀ d r, resp = some (.jobj d) → jlookup d "result" = some (.jobj r) →
      (∃ ts, tsOfBlockTime (jlookup r "blockTime") = .ok ts) →
      txnOrMessageMalformed r →
      parseTransactionDetails resp sig = .ok []) ∧
    (∀ d r t m instrs, resp = some (.jobj d) → jlookup d "result" = some (.jobj r) →
      (∃ ts, tsOfBlockTime (jlookup r "blockTime") = .ok ts) →
      jlookup r "transaction" = some (.jobj t) →
      jlookup t "message" = some (.jobj m) →
      jlookup m "instructions" = some (.jarr instrs) →
      (∀ ins ∈ instrs, declaredTransferType ins = false) →
      parseTransactionDetails resp sig = .ok []) := by
  refine ⟨?_, ?_, ?_⟩
  · intro h
    cases resp with
    | none => rfl
    | some v =>
      cases v with
      | null => rfl
      | jobj d =>
        by_cases hp : pyTruthy (.jobj d)
        · rcases h with h1 | h1 <;> simp [parseTransactionDetails, hp, h1, pyTruthy]
        · simp [parseTransactionDetails, hp]
      | jbool b => exact h.elim
      | jint n => exact h.elim
      | jstr t => exact h.elim
      | jarr l => exact h.elim
  · rintro d r rfl hres ⟨ts, hts⟩ hmal
    have hp : pyTruthy (.jobj d) = true := pyTruthy_jobj_of_lookup hres
    by_cases hr : pyTruthy (.jobj r)
    · rcases hmal with h1 | ⟨t, htr, hmsg⟩
      · cases hlt : jlookup r "transaction" with
        | none => simp [parseTransactionDetails, hp, hres, hr, hts, hlt]
        | some tv =>
          rw [hlt] at h1
          cases tv with
          | jobj t => exact h1.elim
          | null => simp [parseTransactionDetails, hp, hres, hr, hts, hlt]
          | jbool b => simp [parseTransactionDetails, hp, hres, hr, hts, hlt]
          | jint n => simp [parseTransactionDetails, hp, hres, hr, hts, hlt]
          | jstr u => simp [parseTransactionDetails, hp, hres, hr, hts, hlt]
          | jarr l => simp [parseTransactionDetails, hp, hres, hr, hts, hlt]
      · cases hm : jlookup t "message" with
        | none => rw [hm] at hmsg; exact hmsg.elim
        | some mv =>
          rw [hm] at hmsg
          cases mv with
          | jobj m => exact hmsg.elim
          | null => simp [parseTransactionDetails, hp, hres, hr, hts, htr, hm]
          | jbool b => simp [parseTransactionDetails, hp, hres, hr, hts, htr, hm]
          | jint n => simp [parseTransactionDetails, hp, hres, hr, hts, htr, hm]
          | jstr u => simp [parseTransactionDetails, hp, hres, hr, hts, htr, hm]
          | jarr l => simp [parseTransactionDetails, hp, hres, hr, hts, htr, hm]
    · simp [parseTransactionDetails, hp, hres, hr]
  · rintro d r t m instrs rfl hres ⟨ts, hts⟩ htr hm hinstr hno
    have hp : pyTruthy (.jobj d) = true := pyTruthy_jobj_of_lookup hres
    have hr : pyTruthy (.jobj r) = true := pyTruthy_jobj_of_lookup htr
    have hiter : pyIterJ ((jlookup m "instructions").getD (.jarr [])) = .ok instrs := by
      rw [hinstr]
      rfl
    simp [parseTransactionDetails, hp, hres, hr, hts, htr, hm, hiter,
      parseInstructions_nil_of_no_transfer ts sig.signature
        ((jlookup r "slot").getD (.jstr "")) instrs hno]

/-- C5 witness: the three rejection cases applied at concrete responses:
a null result, a result whose `transaction` field is a string, and a
well-formed transaction whose only instruction is a non-transfer. -/
theorem c5_normalizer_rejections_witness :
    parseTransactionDetails (some (.jobj [("result", .null)])) ⟨"w", 1, none⟩ = .ok [] ∧
    parseTransactionDetails
      (some (.jobj [("result", .jobj [("transaction", .jstr "bad")])])) ⟨"w", 1, none⟩ =
      .ok [] ∧
    parseTransactionDetails
      (some (.jobj [("result", .jobj [
        ("blockTime", .jint 1700000000), ("slot", .jint 5),
        ("transaction", .jobj [("message", .jobj [("instructions", .jarr [
          .jobj [("parsed", .jobj [("type", .jstr "createAccount")])]])])])])]))
      ⟨"w", 1, none⟩ = .ok [] := by
  refine ⟨?_, ?_, ?_⟩
  · exact (c5_normalizer_rejections (some (.jobj [("result", .null)])) ⟨"w", 1, none⟩).1
      (Or.inr rfl)
  · exact (c5_normalizer_rejections _ ⟨"w", 1, none⟩).2.1 _ _ rfl rfl ⟨none, rfl⟩
      (Or.inl (by simp [jlookup]))
  · exact (c5_normalizer_rejections _ ⟨"w", 1, none⟩).2.2 _ _ _ _ _ rfl rfl
      ⟨some 1700000000, rfl⟩ rfl rfl rfl (by intro ins hins; simp at hins; subst hins; rfl)

/-- C6 counterexample input: a well-formed transaction whose single `transfer`
instruction has a non-dict `info` value, so it is missing both the source and
the destination field.  `info.get('source')` (solana_helpers.py line 75) then
raises `AttributeError` instead of skipping the instruction. -/
def c6BadResponse : Option J :=
  some (.jobj [("result", .jobj [
    ("blockTime", .jint 1700000000), ("slot", .jint 9),
    ("transaction", .jobj [("message", .jobj [("instructions", .jarr [
      .jobj [("parsed", .jobj [("type", .jstr "transfer"), ("info", .jstr "oops")])]])])])])])

/-- C6 counterexample: the normalizer raises (modelled `.error ()`) on an
instruction missing source and destination, instead of skipping it without
error as the claim states. -/
theorem c6_info_nondict_raises :
    parseTransactionDetails c6BadResponse ⟨"sig6", 9, some 1700000000⟩ = .error () := by
  rfl

theorem isEmpty_false_of_lookup {p : List (String × J)} {k : String} {v : J}
    (h : jlookup p k = some v) : p.isEmpty = false := by
  cases p with
  | nil => simp [jlookup] at h
  | cons q rest => rfl

theorem pyTruthy_getD_of_optTruthy {o : Option J} (h : optTruthy o = true) :
    pyTruthy (o.getD .null) = true := by
  cases o with
  | none => simp [optTruthy] at h
  | some v => simpa [optTruthy] using h

theorem ne_jstr_empty_of_pyTruthy {v : J} (h : pyTruthy v = true) : v ≠ .jstr "" := by
  intro he
  subst he
  simp [pyTruthy] at h

theorem parseInstruction_records_truthy (timestamp : Option Int) (signature : String)
    (blockNum : J) (ins : J) (recs : List TransferRecord)
    (h : parseInstruction timestamp signature blockNum ins = .ok recs) :
    ∀ rec ∈ recs, pyTruthy rec.wallet_1 = true ∧ pyTruthy rec.wallet_2 = true := by
  unfold parseInstruction at h
  repeat' split at h
  all_goals try (cases h)
  all_goals try simp
  constructor <;> apply pyTruthy_getD_of_optTruthy <;> simp_all only [Bool.and_eq_true]

theorem parseInstructions_records_truthy (timestamp : Option Int) (signature : String)
    (blockNum : J) (instrs : List J) (recs : List TransferRecord)
    (h : parseInstructions timestamp signature blockNum instrs = .ok recs) :
    ∀ rec ∈ recs, pyTruthy rec.wallet_1 = true ∧ pyTruthy rec.wallet_2 = true := by
  induction instrs generalizing recs with
  | nil =>
    simp only [parseInstructions] at h
    injection h with h2
    subst h2
    simp
  | cons ins rest ih =>
    unfold parseInstructions at h
    split at h
    · simp at h
    next recs1 hins =>
      split at h
      · simp at h
      next more hmore =>
        injection h with h2
        subst h2
        intro rec hrec
        rcases List.mem_append.mp hrec with h1 | h1
        · exact parseInstruction_records_truthy timestamp signature blockNum ins recs1
            hins rec h1
        · exact ih more hmore rec h1

theorem parseTransactionDetails_records_truthy (resp : Option J) (sig : SigInfo)
    (recs : List TransferRecord)
    (h : parseTransactionDetails resp sig = .ok recs) :
    ∀ rec ∈ recs, pyTruthy rec.wallet_1 = true ∧ pyTruthy rec.wallet_2 = true := by
  unfold parseTransactionDetails at h
  repeat' split at h
  all_goals try (cases h)
  all_goals
    first
    | simp
    | (exact parseInstructions_records_truthy _ _ _ _ _ h)

theorem parseInstruction_skip_missing_wallet (timestamp : Option Int) (signature : String)
    (blockNum : J) (insFields p info : List (String × J))
    (hp : jlookup insFields "parsed" = some (.jobj p))
    (hinfo : jlookup p "info" = some (.jobj info))
    (hmiss : jlookup info "source" = none ∨ jlookup info "destination" = none) :
    parseInstruction timestamp signature blockNum (.jobj insFields) = .ok [] := by
  have hemp : p.isEmpty = false := isEmpty_false_of_lookup hinfo
  have hguard : ¬ (optTruthy (jlookup info "source") = true ∧
      optTruthy (jlookup info "destination") = true) := by
    rcases hmiss with h1 | h1 <;> simp [h1, optTruthy]
  cases ht : jlookup p "type" with
  | none => simp [parseInstruction, hp, hemp, ht]
  | some tv =>
    cases tv with
    | jstr t2 =>
      by_cases htr : (t2 == "transfer" || t2 == "transferChecked") = true
      · simp [parseInstruction, hp, hemp, ht, htr, hinfo, hguard]
      · simp [parseInstruction, hp, hemp, ht, htr]
    | null => simp [parseInstruction, hp, hemp, ht]
    | jbool b => simp [parseInstruction, hp, hemp, ht]
    | jint n => simp [parseInstruction, hp, hemp, ht]
    | jarr l => simp [parseInstruction, hp, hemp, ht]
    | jobj l => simp [parseInstruction, hp, hemp, ht]

/-- C6 (amended): every record the normalizer emits has a truthy — in
particular non-empty, non-null — source and destination; and an instruction
whose `info` is a dict missing the source or the destination field is
skipped without producing a record and without raising.  (When `info` is not
a dict the function instead raises `AttributeError`, per the
counterexample.) -/
theorem c6_records_have_wallets_and_missing_skipped :
    (∀ (resp : Option J) (sig : SigInfo) (recs : List TransferRecord),
      parseTransactionDetails resp sig = .ok recs →
      ∀ rec ∈ recs, pyTruthy rec.wallet_1 = true ∧ pyTruthy rec.wallet_2 = true ∧
        rec.wallet_1 ≠ .jstr "" ∧ rec.wallet_2 ≠ .jstr "") ∧
    (∀ (timestamp : Option Int) (signature : String) (blockNum : J)
        (insFields p info : List (String × J)),
      jlookup insFields "parsed" = some (.jobj p) →
      jlookup p "info" = some (.jobj info) →
      (jlookup info "source" = none ∨ jlookup info "destination" = none) →
      parseInstruction timestamp signature blockNum (.jobj insFields) = .ok []) := by
  constructor
  · intro resp sig recs h rec hrec
    obtain ⟨h1, h2⟩ := parseTransactionDetails_records_truthy resp sig recs h rec hrec
    exact ⟨h1, h2, ne_jstr_empty_of_pyTruthy h1, ne_jstr_empty_of_pyTruthy h2⟩
  · intro timestamp signature blockNum insFields p info hp hinfo hmiss
    exact parseInstruction_skip_missing_wallet timestamp signature blockNum
      insFields p info hp hinfo hmiss

/-- Well-formed fixture response for the C6 witness (the shape of the repo's
own test fixture): one `transferChecked` instruction with source,
destination, authority and a `tokenAmount`. -/
def c6GoodResponse : Option J :=
  some (.jobj [("result", .jobj [
    ("blockTime", .jint 1672531200), ("slot", .jint 12345678),
    ("transaction", .jobj [("message", .jobj [("instructions", .jarr [
      .jobj [("parsed", .jobj [("type", .jstr "transferChecked"),
        ("info", .jobj [("source", .jstr "SourceWallet"),
          ("destination", .jstr "DestinationWallet"),
          ("authority", .jstr "AuthorityWallet"),
          ("tokenAmount", .jobj [("uiAmountString", .jstr "123.45")])])])]])])])])])

/-- The record the normalizer emits for `c6GoodResponse`. -/
def c6Record : TransferRecord :=
  { type := .jstr "transferChecked", wallet_1 := .jstr "SourceWallet",
    wallet_2 := .jstr "DestinationWallet", amount := .raw (.jstr "123.45"),
    authority := some (.jstr "AuthorityWallet"), timestamp := some 1672531200,
    signature := "dummy_sig_123", block_number := .jint 12345678,
    link := "https://solscan.io/tx/dummy_sig_123" }

/-- C6 witness: the amended theorem applied at the fixture response (its one
emitted record has truthy wallets) and at a concrete instruction whose dict
`info` lacks a source (skipped as `.ok []`). -/
theorem c6_records_have_wallets_and_missing_skipped_witness :
    (pyTruthy c6Record.wallet_1 = true ∧ pyTruthy c6Record.wallet_2 = true ∧
      c6Record.wallet_1 ≠ .jstr "" ∧ c6Record.wallet_2 ≠ .jstr "") ∧
    parseInstruction none "w" .null
      (.jobj [("parsed", .jobj [("type", .jstr "transfer"),
        ("info", .jobj [("destination", .jstr "D")])])]) = .ok [] :=
  ⟨c6_records_have_wallets_and_missing_skipped.1 c6GoodResponse
      ⟨"dummy_sig_123", 12345678, some 1672531200⟩ [c6Record] (by rfl)
      c6Record (List.mem_singleton.mpr rfl),
   c6_records_have_wallets_and_missing_skipped.2 none "w" .null
      [("parsed", .jobj [("type", .jstr "transfer"),
        ("info", .jobj [("destination", .jstr "D")])])]
      [("type", .jstr "transfer"), ("info", .jobj [("destination", .jstr "D")])]
      [("destination", .jstr "D")] rfl rfl (Or.inl rfl)⟩

/-! ## Incremental since-marker scan
(solana_helpers.py `fetch_and_parse_new_transactions`, lines 194-244). -/

/-- One page response of the incremental scan, from the code's point of view:
a result batch, a response carrying an `error` key or a falsy result (the
loop breaks), or an exception escaping the request (caught by the function's
outer `except`). -/
inductive PageResp where
  | ok (batch : List SigInfo)
  | errorResp
  | raised

/-- The inner batch walk (lines 216-220): collect descriptors until the
last-seen marker is found (exclusive); Python `sig_info["signature"] ==
last_signature` is false whenever the marker is `None`. -/
def collectUntilMarker (lastSig : Option String) : List SigInfo → List SigInfo × Bool
  | [] => ([], false)
  | s :: rest =>
    if lastSig == some s.signature then ([], true)
    else
      let r := collectUntilMarker lastSig rest
      (s :: r.1, r.2)

/-- The page loop of `fetch_and_parse_new_transactions` (lines 204-225):
at most 10 pages; break on an error response, a falsy result, the marker, or
a short page; remember the first signature of the first non-empty page as
the prospective new marker (`if not newest_signature`, so an empty-string
signature also counts as unset).  `.error ()` is an exception escaping the
page request, handled by the function's outer `except`. -/
def newScanGo (pages : Nat → PageResp) (lastSig : Option String) :
    Nat → Nat → Option String → List SigInfo →
    Except Unit (List SigInfo × Option String)
  | 0, _, newest, acc => .ok (acc, newest)
  | fuel + 1, i, newest, acc =>
    match pages i with
    | .raised => .error ()
    | .errorResp => .ok (acc, newest)
    | .ok [] => .ok (acc, newest)
    | .ok (b0 :: bs) =>
      let newest1 := if newest.getD "" == "" then some b0.signature else newest
      let c := collectUntilMarker lastSig (b0 :: bs)
      if c.2 || (b0 :: bs).length < 1000 then .ok (acc ++ c.1, newest1)
      else newScanGo pages lastSig fuel (i + 1) newest1 (acc ++ c.1)

/-- The signature-collection phase of `fetch_and_parse_new_transactions`. -/
def newSignatureScan (pages : Nat → PageResp) (lastSig : Option String) :
    Except Unit (List SigInfo × Option String) :=
  newScanGo pages lastSig 10 0 none []

/-- The fetch-and-parse phase (lines 231-238): fetch every collected
descriptor through the per-item retry helper, parse each response, extend in
order; an exception from the parser escapes to the outer handler. -/
def parseAllFetched (txOracle : String → Nat → Option J) :
    List SigInfo → Except Unit (List TransferRecord)
  | [] => .ok []
  | s :: rest =>
    match parseTransactionDetails (fetchTransactionWithRetry txOracle s.signature).1 s with
    | .error er => .error er
    | .ok recs =>
      match parseAllFetched txOracle rest with
      | .error er => .error er
      | .ok more => .ok (recs ++ more)

/-- `fetch_and_parse_new_transactions` (lines 194-244): returns
`([], last_signature)` when nothing new was collected (line 227-228) and on
any exception (lines 242-244); otherwise the parsed records with the newest
first-page signature as the new marker. -/
def fetchAndParseNewTransactions (pages : Nat → PageResp)
    (txOracle : String → Nat → Option J) (lastSig : Option String) :
    List TransferRecord × Option String :=
  match newSignatureScan pages lastSig with
  | .error _ => ([], lastSig)
  | .ok (collected, newest) =>
    if collected.isEmpty then ([], lastSig)
    else
      match parseAllFetched txOracle collected with
      | .error _ => ([], lastSig)
      | .ok recs => (recs, newest)

/-- C10: the incremental scan preserves the supplied marker whenever no new
signature is collected — the scan ends with an empty collection (marker on
the first page, empty history, erroring page) or raises — returning exactly
`([], last_signature)`; conversely, whenever the returned marker differs
from the supplied one, the scan collected at least one new signature and
the returned marker is the scan's newest first-page signature. -/
theorem c10_marker_preserved_without_new_signatures (pages : Nat → PageResp)
    (txOracle : String → Nat → Option J) (lastSig : Option String) :
    ((∀ c n, newSignatureScan pages lastSig = .ok (c, n) → c = []) →
      fetchAndParseNewTransactions pages txOracle lastSig = ([], lastSig)) ∧
    ((fetchAndParseNewTransactions pages txOracle lastSig).2 ≠ lastSig →
      ∃ c n, newSignatureScan pages lastSig = .ok (c, n) ∧ c ≠ [] ∧
        n = (fetchAndParseNewTransactions pages txOracle lastSig).2) := by
  constructor
  · intro hempty
    cases hscan : newSignatureScan pages lastSig with
    | error e =>
      unfold fetchAndParseNewTransactions
      rw [hscan]
    | ok cn =>
      obtain ⟨c1, n1⟩ := cn
      have hc : c1 = [] := hempty c1 n1 hscan
      subst hc
      unfold fetchAndParseNewTransactions
      rw [hscan]
      rfl
  · intro hne
    cases hscan : newSignatureScan pages lastSig with
    | error e =>
      have hval : fetchAndParseNewTransactions pages txOracle lastSig = ([], lastSig) := by
        unfold fetchAndParseNewTransactions
        rw [hscan]
      rw [hval] at hne
      exact absurd rfl hne
    | ok cn =>
      obtain ⟨c1, n1⟩ := cn
      have hval : fetchAndParseNewTransactions pages txOracle lastSig =
          (if c1.isEmpty then ([], lastSig)
           else
             match parseAllFetched txOracle c1 with
             | .error _ => ([], lastSig)
             | .ok recs => (recs, n1)) := by
        unfold fetchAndParseNewTransactions
        rw [hscan]
      by_cases hc : c1.isEmpty
      · rw [hval, if_pos hc] at hne
        exact absurd rfl hne
      · cases hparse : parseAllFetched txOracle c1 with
        | error e =>
          rw [hval, if_neg hc, hparse] at hne
          exact absurd rfl hne
        | ok recs =>
          refine ⟨c1, n1, rfl, by simpa using hc, ?_⟩
          rw [hval, if_neg hc, hparse]

/-- Page oracle for the C10 witness: the first page's newest signature equals
the supplied marker `m`, so nothing is collected. -/
def pagesMarkerFirst : Nat → PageResp := fun i =>
  if i == 0 then .ok [⟨"m", 10, some 5⟩] else .errorResp

/-- C10 witness: the theorem applied at the marker-on-first-page oracle —
the result is the empty record list with the marker unchanged. -/
theorem c10_marker_preserved_without_new_signatures_witness :
    fetchAndParseNewTransactions pagesMarkerFirst (fun _ _ => none) (some "m") =
      ([], some "m") :=
  (c10_marker_preserved_without_new_signatures pagesMarkerFirst (fun _ _ => none)
      (some "m")).1
    (by
      intro c n h
      have he : newSignatureScan pagesMarkerFirst (some "m") = .ok ([], some "m") := rfl
      rw [he] at h
      injection h with h2
      exact (congrArg Prod.fst h2).symm)

/-! ## Live-monitor notification formatter
(monitoring.py `format_transaction_notification`, lines 17-81).

The token-accounts RPC call at lines 41-48 is dead code — its result is
assigned but never read — and is therefore not part of the embedding. -/

/-- Digit-string value, for the decimal fragment of Python `float(str)`. -/
def digitsVal (cs : List Char) : Option Nat :=
  if cs.isEmpty then none
  else if cs.all (fun c => c.isDigit) then
    some (cs.foldl (fun acc c => 10 * acc + (c.toNat - 48)) 0)
  else none

/-- The plain decimal fragment of Python `float(str)`:
optional sign, digits with an optional fractional part (`"1"`, `"1.5"`,
`"1."`, `".5"`), surrounding whitespace stripped.  Exotic accepted forms
(exponents, `inf`, `nan`, underscores) are not modelled; on those this model
is stricter than Python, which only narrows the domain of theorems whose
hypotheses require parse success. -/
def pyFloatOfString (s : String) : Option ℚ :=
  let t := ((s.toList.dropWhile (fun c => c.isWhitespace)).reverse.dropWhile
    (fun c => c.isWhitespace)).reverse
  let sr : ℚ × List Char :=
    match t with
    | '-' :: r => (-1, r)
    | '+' :: r => (1, r)
    | r => (1, r)
  let ip := sr.2.takeWhile (fun c => c ≠ '.')
  match sr.2.dropWhile (fun c => c ≠ '.') with
  | [] =>
    match digitsVal ip with
    | some n => some (sr.1 * n)
    | none => none
  | _ :: fp =>
    if fp.contains '.' then none
    else if ip.isEmpty && fp.isEmpty then none
    else if (ip.isEmpty || ip.all (fun c => c.isDigit)) &&
        (fp.isEmpty || fp.all (fun c => c.isDigit)) then
      let ipv : Nat := ip.foldl (fun acc c => 10 * acc + (c.toNat - 48)) 0
      let fpv : Nat := fp.foldl (fun acc c => 10 * acc + (c.toNat - 48)) 0
      some (sr.1 * ((ipv : ℚ) + (fpv : ℚ) / (10 : ℚ) ^ fp.length))
    else none

/-- Python `float(v)`: numbers pass through (`True` is 1), strings are
parsed, everything else raises `TypeError`. -/
def pyFloat (v : J) : Except Unit ℚ :=
  match v with
  | .jint n => .ok n
  | .jbool b => .ok (if b then 1 else 0)
  | .jstr s =>
    match pyFloatOfString s with
    | some q => .ok q
    | none => .error ()
  | _ => .error ()

/-- A numeric reading of a balance entry, for `post_sol - pre_sol`
(monitoring.py line 36): only ints (and bools) subtract; anything else
raises `TypeError`, which the surrounding `except (KeyError, IndexError,
TypeError)` absorbs. -/
def jIntNum : J → Option Int
  | .jint n => some n
  | .jbool b => some (if b then 1 else 0)
  | _ => none

/-- The SOL-delta block of `format_transaction_notification` (monitoring.py
lines 29-38).  `KeyError`/`IndexError`/`TypeError` are caught by the
`except` at line 37 and leave the change at 0; an `AttributeError` from
`.get` on a truthy non-dict `message` is NOT in that tuple and escapes. -/
def solBalanceChange (txField meta : J) (wallet : String) : Except Unit ℚ :=
  match txField with
  | .jobj t =>
    match jlookup t "message" with
    | none => .ok 0
    | some (.jobj m) =>
      match pyIterJ ((jlookup m "accountKeys").getD (.jarr [])) with
      | .error _ => .ok 0
      | .ok keys =>
        match keys.findIdx? (fun a => match a with | .jstr s => s == wallet | _ => false) with
        | none => .ok 0
        | some i =>
          match meta with
          | .jobj md =>
            match jlookup md "preBalances", jlookup md "postBalances" with
            | some (.jarr pre), some (.jarr post) =>
              match pre[i]?, post[i]? with
              | some pv, some qv =>
                match jIntNum pv, jIntNum qv with
                | some a, some b => .ok (((b - a : Int) : ℚ) / 1000000000)
                | _, _ => .ok 0
              | _, _ => .ok 0
            | _, _ => .ok 0
          | _ => .ok 0
    | some _ => .error ()
  | _ => .error ()

/-- Python equality of the hashable JSON scalars used as dict keys
(`b['mint']` values); note `True == 1` in Python. -/
def pyScalarKeyEq : J → J → Bool
  | .null, .null => true
  | .jbool a, .jbool b => a == b
  | .jbool a, .jint n => (if a then (1 : Int) else 0) == n
  | .jint n, .jbool a => n == (if a then (1 : Int) else 0)
  | .jint a, .jint b => a == b
  | .jstr a, .jstr b => a == b
  | _, _ => false

/-- Dict assignment for the mint-keyed comprehensions: overwrite an existing
key in place, else append (Python dicts keep first-insertion order). -/
def mapInsert (m : List (J × List (String × J))) (k : J) (v : List (String × J)) :
    List (J × List (String × J)) :=
  if m.any (fun p => pyScalarKeyEq p.1 k) then
    m.map (fun p => if pyScalarKeyEq p.1 k then (p.1, v) else p)
  else m ++ [(k, v)]

/-- The body of the dict comprehension
`{b['mint']: b for b in meta.get(key, []) if b.get('owner') == wallet}`
(monitoring.py lines 50-51), walking the entries left to right.  A non-dict
entry raises at `b.get`; a kept entry without a `mint` key raises
`KeyError`; an unhashable `mint` value raises `TypeError`. -/
def buildOwnerMap (wallet : String) : List J → List (J × List (String × J)) →
    Except Unit (List (J × List (String × J)))
  | [], acc => .ok acc
  | b :: rest, acc =>
    match b with
    | .jobj bf =>
      if (match jlookup bf "owner" with | some (.jstr o) => o == wallet | _ => false) then
        match jlookup bf "mint" with
        | none => .error ()
        | some (.jarr _) => .error ()
        | some (.jobj _) => .error ()
        | some mintv => buildOwnerMap wallet rest (mapInsert acc mintv bf)
      else buildOwnerMap wallet rest acc
    | _ => .error ()

/-- One owner-filtered token-balance map of the formatter: iterate
`meta.get(key, [])` (a non-iterable raises, uncaught here) and build the
mint-keyed dict. -/
def ownerTokenMap (md : List (String × J)) (key wallet : String) :
    Except Unit (List (J × List (String × J))) :=
  match pyIterJ ((jlookup md key).getD (.jarr [])) with
  | .error er => .error er
  | .ok items => buildOwnerMap wallet items []

/-- `all_mints = set(pre.keys()) | set(post.keys())` (line 52).  Python
iterates this set in unspecified order; the model fixes pre-keys first, then
the post-only keys.  No theorem here depends on the order. -/
def allMints (pre post : List (J × List (String × J))) : List J :=
  pre.map Prod.fst ++
    (post.map Prod.fst).filter (fun k => !(pre.any (fun p => pyScalarKeyEq p.1 k)))

/-- `float(map.get(mint, {}).get('uiTokenAmount', {}).get('uiAmountString',
'0'))` (lines 55-56): missing layers default to `'0'`; a non-dict
`uiTokenAmount` raises at `.get`; the string is parsed by `float`. -/
def mapAmount (m : List (J × List (String × J))) (mint : J) : Except Unit ℚ :=
  match m.find? (fun p => pyScalarKeyEq p.1 mint) with
  | none => .ok 0
  | some p =>
    match jlookup p.2 "uiTokenAmount" with
    | none => .ok 0
    | some (.jobj ta) =>
      match jlookup ta "uiAmountString" with
      | none => .ok 0
      | some v => pyFloat v
    | some _ => .error ()

/-- The per-mint change loop (monitoring.py lines 54-59): keep
`(mint, post - pre)` when `abs(change) > 0`. -/
def tokenChangesGo (pre post : List (J × List (String × J))) :
    List J → Except Unit (List (J × ℚ))
  | [] => .ok []
  | mint :: rest =>
    match mapAmount pre mint with
    | .error er => .error er
    | .ok a =>
      match mapAmount post mint with
      | .error er => .error er
      | .ok b =>
        match tokenChangesGo pre post rest with
        | .error er => .error er
        | .ok more => .ok (if b - a ≠ 0 then (mint, b - a) :: more else more)

/-- The token-change list of the formatter. -/
def tokenChangesOf (pre post : List (J × List (String × J))) :
    Except Unit (List (J × ℚ)) :=
  tokenChangesGo pre post (allMints pre post)

/-- Direction label of a notification line: `Получено` (received) for a
positive change, `Отправлено` (sent) for a negative one. -/
inductive Dir where
  | received
  | sent
deriving DecidableEq, Repr

/-- A notification line: the SOL line carries the direction and the absolute
change in SOL (the rendered string also carries exactly these).  Token lines
are unreachable in the current source — see `formatTransactionNotification`. -/
inductive NotifLine where
  | sol (d : Dir) (absAmount : ℚ)
  | token (mint : J) (d : Dir) (absAmount : ℚ)

/-- The formatter's result: the empty string (no notification) or a message
with its balance-change lines. -/
inductive FormatResult where
  | empty
  | message (lines : List NotifLine)

/-- `format_transaction_notification` (monitoring.py lines 17-81).
`tx_info['signature']` (line 19) raises `KeyError` when absent; falsy
`transaction` or `meta` or a truthy `meta['err']` yield the empty result
(line 23-24); the SOL delta and owner-filtered token maps are computed as
above.  When the token-change list is nonempty the source calls
`get_token_prices([...])` (line 68) WITHOUT the `api_key` argument that
`solana_helpers.get_token_prices(token_addresses, api_key)` requires, so
Python raises `TypeError` there — modelled as `.error ()`; the repo's tests
mask this by patching `monitoring.get_token_prices`. -/
def formatTransactionNotification (txInfo : J) (wallet : String) :
    Except Unit FormatResult :=
  match txInfo with
  | .jobj ti =>
    match jlookup ti "signature" with
    | none => .error ()
    | some _ =>
      if !pyTruthy ((jlookup ti "transaction").getD (.jobj [])) then .ok .empty
      else if !pyTruthy ((jlookup ti "meta").getD (.jobj [])) then .ok .empty
      else
        match (jlookup ti "meta").getD (.jobj []) with
        | .jobj md =>
          if pyTruthy ((jlookup md "err").getD .null) then .ok .empty
          else
            match solBalanceChange ((jlookup ti "transaction").getD (.jobj []))
                (.jobj md) wallet with
            | .error er => .error er
            | .ok solChange =>
              match ownerTokenMap md "preTokenBalances" wallet with
              | .error er => .error er
              | .ok pre =>
                match ownerTokenMap md "postTokenBalances" wallet with
                | .error er => .error er
                | .ok post =>
                  match tokenChangesOf pre post with
                  | .error er => .error er
                  | .ok tch =>
                    if tch.isEmpty then
                      if |solChange| > 0 then
                        .ok (.message
                          [.sol (if solChange > 0 then .received else .sent) |solChange|])
                      else .ok .empty
                    else .error ()
        | _ => .error ()
  | _ => .error ()

theorem exists_ok_of_isOk {α β : Type} {e : Except α β} (h : e.isOk = true) :
    ∃ q, e = .ok q := by
  cases e with
  | ok q => exact ⟨q, rfl⟩
  | error a => exact Bool.noConfusion h

theorem tokenChangesGo_self (M : List (J × List (String × J))) (l : List J)
    (h : ∀ mint ∈ l, ∃ q, mapAmount M mint = .ok q) :
    tokenChangesGo M M l = .ok [] := by
  induction l with
  | nil => rfl
  | cons mint rest ih =>
    obtain ⟨q, hq⟩ := h mint (List.mem_cons_self mint rest)
    unfold tokenChangesGo
    rw [hq, ih (fun x hx => h x (List.mem_cons_of_mem mint hx))]
    simp

/-- Identical owner-filtered balance maps produce no token changes: every
mint's pre and post amounts coincide, so `abs(change) > 0` never holds. -/
theorem tokenChangesOf_self (M : List (J × List (String × J)))
    (h : ∀ mint ∈ allMints M M, ∃ q, mapAmount M mint = .ok q) :
    tokenChangesOf M M = .ok [] := by
  unfold tokenChangesOf
  exact tokenChangesGo_self M (allMints M M) h

/-- C8: a transaction whose computed native delta for the monitored address
is zero and whose owner-filtered pre- and post-token-balance maps are
identical (and readable: amounts parse) produces the empty result — no
notification — regardless of the balances of other accounts, which are
unconstrained by the hypotheses. -/
theorem c8_no_delta_empty_notification (ti md : List (String × J)) (wallet : String)
    (M : List (J × List (String × J)))
    (hsig : (jlookup ti "signature").isSome)
    (hmd : (jlookup ti "meta").getD (.jobj []) = .jobj md)
    (hsol : solBalanceChange ((jlookup ti "transaction").getD (.jobj []))
      (.jobj md) wallet = .ok 0)
    (hpre : ownerTokenMap md "preTokenBalances" wallet = .ok M)
    (hpost : ownerTokenMap md "postTokenBalances" wallet = .ok M)
    (hamts : ∀ mint ∈ allMints M M, ∃ q, mapAmount M mint = .ok q) :
    formatTransactionNotification (.jobj ti) wallet = .ok .empty := by
  obtain ⟨sigv, hsigv⟩ := Option.isSome_iff_exists.mp hsig
  by_cases htx : pyTruthy ((jlookup ti "transaction").getD (.jobj [])) = true
  · by_cases hmt : pyTruthy ((jlookup ti "meta").getD (.jobj [])) = true
    · by_cases herr : pyTruthy ((jlookup md "err").getD .null) = true
      · simp [formatTransactionNotification, hsigv, hmd, htx, hmt, herr]
      · simp [formatTransactionNotification, hsigv, hmd, htx, hmt, herr, hsol, hpre,
          hpost, tokenChangesOf_self M hamts]
    · simp [formatTransactionNotification, hsigv, htx, hmt]
  · simp [formatTransactionNotification, hsigv, htx]

/-- Fixture for the C8 witness: the monitored wallet `W` has an unchanged
SOL balance and an unchanged token balance for `mintW`, while another
account's SOL balance and another owner's token balance change. -/
def c8Meta : List (String × J) :=
  [("err", .null),
   ("preBalances", .jarr [.jint 5, .jint 100]),
   ("postBalances", .jarr [.jint 5, .jint 250]),
   ("preTokenBalances", .jarr [
      .jobj [("mint", .jstr "mintX"), ("owner", .jstr "X"),
             ("uiTokenAmount", .jobj [("uiAmountString", .jstr "7.0")])],
      .jobj [("mint", .jstr "mintW"), ("owner", .jstr "W"),
             ("uiTokenAmount", .jobj [("uiAmountString", .jstr "100.0")])]]),
   ("postTokenBalances", .jarr [
      .jobj [("mint", .jstr "mintX"), ("owner", .jstr "X"),
             ("uiTokenAmount", .jobj [("uiAmountString", .jstr "9.0")])],
      .jobj [("mint", .jstr "mintW"), ("owner", .jstr "W"),
             ("uiTokenAmount", .jobj [("uiAmountString", .jstr "100.0")])]])]

/-- The C8 witness transaction dict. -/
def c8TxInfo : List (String × J) :=
  [("signature", .jstr "s8"),
   ("transaction", .jobj [("message", .jobj [("accountKeys",
      .jarr [.jstr "W", .jstr "X"])])]),
   ("meta", .jobj c8Meta)]

/-- C8 witness: the theorem applied at the fixture — the other account's SOL
moves from 100 to 250 and the other owner's token balance changes, yet the
formatter returns the empty result. -/
theorem c8_no_delta_empty_notification_witness :
    formatTransactionNotification (.jobj c8TxInfo) "W" = .ok .empty :=
  c8_no_delta_empty_notification c8TxInfo c8Meta "W"
    [(.jstr "mintW",
      [("mint", .jstr "mintW"), ("owner", .jstr "W"),
       ("uiTokenAmount", .jobj [("uiAmountString", .jstr "100.0")])])]
    (by rfl) (by rfl)
    (by
      have h : solBalanceChange ((jlookup c8TxInfo "transaction").getD (.jobj []))
          (.jobj c8Meta) "W" = .ok (((5 - 5 : Int) : ℚ) / 1000000000) := rfl
      rw [h]
      norm_num)
    (by rfl) (by rfl)
    (by
      intro mint hm
      cases hm with
      | head => exact exists_ok_of_isOk (by decide)
      | tail _ h2 => cases h2)

/-- The C9 transaction field: the monitored address is account index 0. -/
def c9Transaction : J :=
  .jobj [("message", .jobj [("accountKeys", .jarr [.jstr "Wallet9", .jstr "Other"])])]

/-- The C9 meta field: the monitored address's lamports drop from
10,000,000,000 to 9,000,000,000; no token balances. -/
def c9Meta : J :=
  .jobj [("err", .null),
         ("preBalances", .jarr [.jint 10000000000, .jint 77]),
         ("postBalances", .jarr [.jint 9000000000, .jint 78]),
         ("preTokenBalances", .jarr []),
         ("postTokenBalances", .jarr [])]

/-- The C9 witness transaction info. -/
def c9TxInfo : J :=
  .jobj [("signature", .jstr "sig9"), ("transaction", c9Transaction), ("meta", c9Meta)]

/-- C9: for the monitored address with lamport balance 10,000,000,000 before
and 9,000,000,000 after, the formatter computes the native delta
`(post - pre) / 10^9 = -1` SOL and emits a single line marked with the
outgoing (sent) direction and absolute amount 1. -/
theorem c9_sol_outgoing_delta :
    solBalanceChange c9Transaction c9Meta "Wallet9" = .ok (-1) ∧
    formatTransactionNotification c9TxInfo "Wallet9" =
      .ok (.message [.sol .sent 1]) := by
  constructor
  · have h : solBalanceChange c9Transaction c9Meta "Wallet9" =
        .ok (((9000000000 - 10000000000 : Int) : ℚ) / 1000000000) := rfl
    rw [h]
    norm_num
  · have h : formatTransactionNotification c9TxInfo "Wallet9" =
        (if |((9000000000 - 10000000000 : Int) : ℚ) / 1000000000| > 0 then
          .ok (.message [.sol
            (if ((9000000000 - 10000000000 : Int) : ℚ) / 1000000000 > 0 then .received
             else .sent)
            |((9000000000 - 10000000000 : Int) : ℚ) / 1000000000|])
         else .ok .empty) := rfl
    rw [h]
    norm_num

end SolanaTrackerBot
